import Mathlib

/-!
Verification development for the elohim (AEON) video editing pipeline.

The Python sources are shallowly embedded: times, durations and pixel
values become rationals, Python ints become integers, functions that can
raise become Option or Except valued, and external library results
(librosa decoding, subprocess runs, CUDA availability) become explicit
parameters of the embedded functions.

Embedded modules:
- backend/python/aeon_pipeline.py : detect_beats, sync_transitions_to_beats
- backend/app/utils.py : calculate_viral_score, get_target_dimensions,
  validate_clips
- backend/app/beat_sync.py : analyze_audio_energy
- backend/app/pipeline.py : the clip validation stage of process_video_edit
- backend/app/transitions.py : apply_viral_transitions (duration accounting),
  slide_transition, zoom_punch_transition (blend schedule and zoom sampling)
- frontend/lib/agents/gpu_transition_worker.py : GPUTransitionEngine
  (render_gpu_transition, render_ffmpeg_transition, zoom_punch_kernel)
- newer_ideas/aeon-implementation-guide.py : BeatSyncEngine._identify_strong_beats
-/

/-- Python int() applied to a rational: truncation toward zero. -/
def pyInt (q : ℚ) : ℤ := if 0 ≤ q then ⌊q⌋ else ⌈q⌉

/-- Python min(iterable, key=f) with a nonempty iterable a :: l: scans left
to right and replaces the current minimum only on a strictly smaller key,
so the first occurrence of the minimal key wins. -/
def pyMinBy (f : ℚ → ℚ) (a : ℚ) (l : List ℚ) : ℚ :=
  l.foldl (fun acc x => if f x < f acc then x else acc) a

/-- numpy median: sort, take the middle element for odd length, the mean of
the two middle elements for even length (0 for the empty list, where numpy
would return nan). -/
def npMedian (l : List ℚ) : ℚ :=
  let s := l.insertionSort (· ≤ ·)
  let n := s.length
  if n = 0 then 0
  else if n % 2 = 1 then s.getD (n / 2) 0
  else (s.getD (n / 2 - 1) 0 + s.getD (n / 2) 0) / 2

/-! ## backend/app/utils.py : calculate_viral_score -/

/-- Edit configuration. The config dict fields read by
calculate_viral_score; aspect holds the aspect-ratio tag string. -/
structure EditConfig where
  viral_mode : Bool
  beat_sync : Bool
  velocity_editing : Bool
  first_frame_hook : Bool
  kinetic_captions : Bool
  asmr_layer : Bool
  transitions : String
  aspect : String
deriving DecidableEq

/-- transition_scores dict lookup with default 0. -/
def transition_scores (t : String) : ℤ :=
  if t = "viral_cut" then 20
  else if t = "zoom_punch" then 15
  else if t = "glitch" then 12
  else if t = "3d_flip" then 10
  else if t = "slide" then 5
  else 0

/-- aspect_scores dict lookup with default 0. -/
def aspect_scores (a : String) : ℤ :=
  if a = "9:16" then 10
  else if a = "1:1" then 5
  else if a = "16:9" then 0
  else 0

/-- calculate_viral_score from backend/app/utils.py: base 50, sequential
feature bonuses, transition and aspect lookups, capped at 100. -/
def calculate_viral_score (c : EditConfig) : ℤ :=
  let score : ℤ := 50
  let score := if c.viral_mode then score + 20 else score
  let score := if c.beat_sync then score + 15 else score
  let score := if c.velocity_editing then score + 10 else score
  let score := if c.first_frame_hook then score + 15 else score
  let score := if c.kinetic_captions then score + 10 else score
  let score := if c.asmr_layer then score + 5 else score
  let score := score + transition_scores c.transitions
  let score := score + aspect_scores c.aspect
  min score 100

/-- The reference definition of the viral score as the spec states it:
one flat sum of base 50, the six feature bonuses, the transition lookup
and the aspect lookup, capped at 100. -/
def claimedViralScore (c : EditConfig) : ℤ :=
  min (50 + (if c.viral_mode then 20 else 0) + (if c.beat_sync then 15 else 0)
    + (if c.velocity_editing then 10 else 0)
    + (if c.first_frame_hook then 15 else 0)
    + (if c.kinetic_captions then 10 else 0)
    + (if c.asmr_layer then 5 else 0)
    + transition_scores c.transitions + aspect_scores c.aspect) 100

theorem transition_scores_nonneg (t : String) : 0 ≤ transition_scores t := by
  unfold transition_scores
  repeat' split
  all_goals norm_num

theorem aspect_scores_nonneg (a : String) : 0 ≤ aspect_scores a := by
  unfold aspect_scores
  repeat' split
  all_goals norm_num

theorem viralScore_flat (c : EditConfig) :
    calculate_viral_score c = claimedViralScore c := by
  rcases c with ⟨v, b, ve, fh, kc, al, t, ar⟩
  cases v <;> cases b <;> cases ve <;> cases fh <;> cases kc <;> cases al <;> rfl

/-! ## backend/python/aeon_pipeline.py : detect_beats -/

/-- detect_beats: the librosa decode and beat track result is passed in as
an Option (none models the exception path); on failure the except branch
returns the empty beat list and tempo 120. -/
def detect_beats (decoded : Option (List ℚ × ℚ)) : List ℚ × ℚ :=
  match decoded with
  | some r => r
  | none => ([], 120)

/-! ## backend/app/beat_sync.py : analyze_audio_energy -/

/-- Result record of analyze_audio_energy. -/
structure AudioAnalysis where
  tempo : ℚ
  avg_energy : ℚ
  max_energy : ℚ
  avg_brightness : ℚ
  high_energy_sections : List ℚ
  total_duration : ℚ
  beat_count : ℕ
deriving DecidableEq

/-- analyze_audio_energy: the librosa analysis result is passed in as an
Option (none models the exception path); on failure the except branch
returns the fixed default record. -/
def analyze_audio_energy (r : Option AudioAnalysis) : AudioAnalysis :=
  match r with
  | some a => a
  | none =>
    { tempo := 120
      avg_energy := 1/2
      max_energy := 1
      avg_brightness := 1000
      high_energy_sections := []
      total_duration := 30
      beat_count := 0 }

/-! ## Claim theorems for C3, C10, C4 -/

/-- C3: for every config the viral score equals the reference definition
(base 50, fixed per-feature bonuses, transition and aspect lookups, capped
at 100), and identical configs always yield identical scores. -/
theorem viral_score_matches_reference :
    (∀ c : EditConfig, calculate_viral_score c = claimedViralScore c) ∧
    (∀ c₁ c₂ : EditConfig, c₁ = c₂ →
      calculate_viral_score c₁ = calculate_viral_score c₂) := by
  exact ⟨viralScore_flat, fun c₁ c₂ h => by rw [h]⟩

/-- Witness for C3 at a concrete config. -/
theorem viral_score_matches_reference_witness :
    calculate_viral_score
        ⟨true, true, false, false, false, false, "slide", "9:16"⟩ =
      claimedViralScore
        ⟨true, true, false, false, false, false, "slide", "9:16"⟩ ∧
    calculate_viral_score
        ⟨true, true, false, false, false, false, "slide", "9:16"⟩ =
      calculate_viral_score
        ⟨true, true, false, false, false, false, "slide", "9:16"⟩ :=
  ⟨viral_score_matches_reference.1 _,
   viral_score_matches_reference.2 _ _ rfl⟩

/-- C10: the viral score always lies in the interval from 50 to 100, and a
config with every toggle off and unrecognized transition and aspect tags
scores exactly the base 50. -/
theorem viral_score_lower_bound :
    (∀ c : EditConfig,
      50 ≤ calculate_viral_score c ∧ calculate_viral_score c ≤ 100) ∧
    calculate_viral_score
      ⟨false, false, false, false, false, false, "swipe", "4:5"⟩ = 50 := by
  refine ⟨fun c => ?_, by rfl⟩
  rw [viralScore_flat]
  unfold claimedViralScore
  have hT := transition_scores_nonneg c.transitions
  have hA := aspect_scores_nonneg c.aspect
  have h1 : (0:ℤ) ≤ if c.viral_mode then 20 else 0 := by split <;> norm_num
  have h2 : (0:ℤ) ≤ if c.beat_sync then 15 else 0 := by split <;> norm_num
  have h3 : (0:ℤ) ≤ if c.velocity_editing then 10 else 0 := by split <;> norm_num
  have h4 : (0:ℤ) ≤ if c.first_frame_hook then 15 else 0 := by split <;> norm_num
  have h5 : (0:ℤ) ≤ if c.kinetic_captions then 10 else 0 := by split <;> norm_num
  have h6 : (0:ℤ) ≤ if c.asmr_layer then 5 else 0 := by split <;> norm_num
  exact ⟨le_min (by omega) (by norm_num), min_le_right _ _⟩

/-- C4: when the audio cannot be decoded, detect_beats returns the empty
beat list with tempo defaulted to 120, and analyze_audio_energy returns
its fixed default record, whose array fields are empty. -/
theorem beat_analysis_decode_failure_defaults :
    detect_beats none = ([], 120) ∧
    analyze_audio_energy none =
      { tempo := 120, avg_energy := 1/2, max_energy := 1,
        avg_brightness := 1000, high_energy_sections := [],
        total_duration := 30, beat_count := 0 } ∧
    (analyze_audio_energy none).high_energy_sections = [] ∧
    (detect_beats none).1 = [] :=
  ⟨rfl, rfl, rfl, rfl⟩

/-! ## frontend/lib/agents/gpu_transition_worker.py : GPUTransitionEngine -/

/-- RenderResult dataclass. -/
structure RenderResult where
  success : Bool
  output_path : String
  processing_time_ms : ℤ
  gpu_accelerated : Bool
  frames_processed : ℤ
  error_message : Option String
deriving DecidableEq

/-- External facts a single transition render depends on: whether CUDA is
usable (self.gpu_available), the outcome of the GPU frame extraction,
kernel launch and encode steps (error carries the raised exception text;
ok carries the frame count and encoded output path), and the outcome of
the FFmpeg subprocess (error means an exception before a returncode was
obtained; ok carries the returncode and captured stderr text). -/
structure RenderEnv where
  gpu_available : Bool
  gpuSteps : Except String (ℤ × String)
  ffmpegLaunch : Except String (ℤ × String)
  transition_output_path : String
  duration : ℚ

/-- render_ffmpeg_transition: success result on returncode 0, otherwise a
failure result whose error_message captures the diagnostic output (the
raised FFmpeg failed message, or the exception text). -/
def render_ffmpeg_transition (env : RenderEnv) : RenderResult :=
  match env.ffmpegLaunch with
  | .ok (rc, errOut) =>
    if rc = 0 then
      { success := true, output_path := env.transition_output_path,
        processing_time_ms := 0, gpu_accelerated := false,
        frames_processed := pyInt (env.duration * 30), error_message := none }
    else
      { success := false, output_path := "", processing_time_ms := 0,
        gpu_accelerated := false, frames_processed := 0,
        error_message := some ("FFmpeg failed: " ++ errOut) }
  | .error e =>
    { success := false, output_path := "", processing_time_ms := 0,
      gpu_accelerated := false, frames_processed := 0,
      error_message := some e }

/-- render_gpu_transition: immediately defers to the FFmpeg path when the
GPU is unavailable; otherwise runs the GPU steps and, if any of them
raises, falls back to the FFmpeg path for this transition. -/
def render_gpu_transition (env : RenderEnv) : RenderResult :=
  if env.gpu_available = false then render_ffmpeg_transition env
  else
    match env.gpuSteps with
    | .ok (n, path) =>
      { success := true, output_path := path, processing_time_ms := 0,
        gpu_accelerated := true, frames_processed := n,
        error_message := none }
    | .error _ => render_ffmpeg_transition env

/-- C2: if the GPU is unavailable or any GPU step raises, the render of
that transition is exactly the CPU/FFmpeg fallback result (never an
abort), and whenever the fallback encoder succeeds the result has
gpu_accelerated false and success true. -/
theorem gpu_failure_falls_back_to_ffmpeg (env : RenderEnv) :
    ((env.gpu_available = false ∨ (∃ e, env.gpuSteps = .error e)) →
      render_gpu_transition env = render_ffmpeg_transition env) ∧
    (∀ rc errOut, env.ffmpegLaunch = .ok (rc, errOut) → rc = 0 →
      (render_ffmpeg_transition env).gpu_accelerated = false ∧
      (render_ffmpeg_transition env).success = true) := by
  constructor
  · rintro (hgpu | ⟨e, herr⟩)
    · unfold render_gpu_transition
      rw [if_pos hgpu]
    · unfold render_gpu_transition
      rcases h : env.gpu_available with _ | _
      · rw [if_pos rfl]
      · simp only [Bool.true_eq_false, if_false, herr]
  · intro rc errOut hok hrc
    subst hrc
    unfold render_ffmpeg_transition
    rw [hok]
    exact ⟨rfl, rfl⟩

/-- Witness for C2: a concrete environment where the GPU kernel raises and
the FFmpeg fallback exits with returncode 0. -/
theorem gpu_failure_falls_back_to_ffmpeg_witness :
    (render_gpu_transition
        ⟨true, .error "CUDA kernel launch failed", .ok (0, ""), "/tmp/t.mp4", 1⟩ =
      render_ffmpeg_transition
        ⟨true, .error "CUDA kernel launch failed", .ok (0, ""), "/tmp/t.mp4", 1⟩) ∧
    (render_ffmpeg_transition
        ⟨true, .error "CUDA kernel launch failed", .ok (0, ""), "/tmp/t.mp4", 1⟩).gpu_accelerated
        = false ∧
    (render_ffmpeg_transition
        ⟨true, .error "CUDA kernel launch failed", .ok (0, ""), "/tmp/t.mp4", 1⟩).success
        = true :=
  ⟨(gpu_failure_falls_back_to_ffmpeg _).1 (Or.inr ⟨_, rfl⟩),
   (gpu_failure_falls_back_to_ffmpeg _).2 0 "" rfl rfl⟩

/-! ## backend/app/utils.py : validate_clips and the pipeline validation
stage of backend/app/pipeline.py : process_video_edit -/

/-- Facts about one input clip path that the per-clip checks read: whether
the file is on disk, whether VideoFileClip can open it, its duration and
its frame size. -/
structure ClipFile where
  on_disk : Bool
  decodable : Bool
  duration : ℚ
  width : ℤ
  height : ℤ
deriving DecidableEq

/-- The per-clip body of the validate_clips loop, in source order: missing
file, undecodable file (the except branch), duration below 0.1, frame
smaller than 100 in either direction; each failure skips the clip. -/
def clip_is_valid (c : ClipFile) : Bool :=
  if c.on_disk = false then false
  else if c.decodable = false then false
  else if c.duration < 1/10 then false
  else if c.width < 100 ∨ c.height < 100 then false
  else true

/-- validate_clips: keeps exactly the clips that pass every check. -/
def validate_clips (cs : List ClipFile) : List ClipFile :=
  cs.filter clip_is_valid

/-- The validation step at the top of process_video_edit: abort with the
no-valid-clips error only when the validated list is empty, otherwise
continue with the validated list. -/
def pipeline_validation_stage (cs : List ClipFile) : Except String (List ClipFile) :=
  let v := validate_clips cs
  if v = [] then .error "No valid video clips found" else .ok v

/-- A clip whose file is missing. -/
def missingClip : ClipFile := ⟨false, false, 0, 0, 0⟩

/-- A clip that passes every validation check. -/
def okClip : ClipFile := ⟨true, true, 3, 1080, 1920⟩

theorem okClip_valid : clip_is_valid okClip = true := by
  norm_num [clip_is_valid, okClip]

theorem missingClip_invalid : clip_is_valid missingClip = false := rfl

/-- C9 counterexample: with one missing clip and one valid clip the
pipeline does not abort; it proceeds with the remaining valid clip. -/
theorem invalid_clip_not_fatal :
    pipeline_validation_stage [missingClip, okClip] = Except.ok [okClip] := by
  unfold pipeline_validation_stage validate_clips
  rw [List.filter_cons_of_neg (by rw [missingClip_invalid]; exact Bool.false_ne_true),
    List.filter_cons_of_pos okClip_valid, List.filter_nil]
  rfl

/-- C9 amended: an invalid clip is skipped with a warning rather than
aborting the job; the validation stage proceeds with exactly the clips
that pass the checks, and aborts before any stage only when no clip
validates. -/
theorem invalid_clips_skipped (cs : List ClipFile) :
    (∀ c ∈ cs, clip_is_valid c = false → c ∉ validate_clips cs) ∧
    ((∃ c ∈ cs, clip_is_valid c = true) →
      pipeline_validation_stage cs = .ok (cs.filter clip_is_valid)) ∧
    ((∀ c ∈ cs, clip_is_valid c = false) →
      pipeline_validation_stage cs = .error "No valid video clips found") := by
  refine ⟨?_, ?_, ?_⟩
  · intro c _ hbad hmem
    rw [validate_clips, List.mem_filter] at hmem
    rw [hbad] at hmem
    exact Bool.false_ne_true hmem.2
  · rintro ⟨c, hc, hval⟩
    unfold pipeline_validation_stage validate_clips
    rw [if_neg]
    intro hnil
    rw [List.filter_eq_nil_iff] at hnil
    exact hnil c hc (by rw [hval])
  · intro hall
    unfold pipeline_validation_stage validate_clips
    rw [if_pos]
    rw [List.filter_eq_nil_iff]
    intro c hc
    rw [hall c hc]
    exact Bool.false_ne_true

/-- Witness for C9 amended at the concrete two-clip input. -/
theorem invalid_clips_skipped_witness :
    (∀ c ∈ [missingClip, okClip], clip_is_valid c = false →
      c ∉ validate_clips [missingClip, okClip]) ∧
    pipeline_validation_stage [missingClip, okClip] =
      .ok ([missingClip, okClip].filter clip_is_valid) :=
  ⟨(invalid_clips_skipped [missingClip, okClip]).1,
   (invalid_clips_skipped [missingClip, okClip]).2.1
     ⟨okClip, List.mem_cons_of_mem _ (List.mem_cons_self _ _), okClip_valid⟩⟩

/-! ## backend/app/utils.py : get_target_dimensions -/

/-- quality_multipliers dict lookup with default 1.0. -/
def quality_multipliers (q : String) : ℚ :=
  if q = "low" then 1/2
  else if q = "medium" then 3/4
  else if q = "high" then 1
  else if q = "ultra" then 3/2
  else 1

/-- base_dimensions dict lookup with default (1080, 1920). -/
def base_dimensions (a : String) : ℤ × ℤ :=
  if a = "9:16" then (1080, 1920)
  else if a = "16:9" then (1920, 1080)
  else if a = "1:1" then (1080, 1080)
  else if a = "4:3" then (1440, 1080)
  else if a = "21:9" then (2560, 1080)
  else (1080, 1920)

/-- get_target_dimensions: scale the base dimensions by the quality
multiplier, truncate to int, then force both dimensions even by
subtracting the remainder mod 2. -/
def get_target_dimensions (a q : String) : ℤ × ℤ :=
  let m := quality_multipliers q
  let base := base_dimensions a
  let target_width := pyInt (base.1 * m)
  let target_height := pyInt (base.2 * m)
  (target_width - target_width % 2, target_height - target_height % 2)

/-! ## backend/app/transitions.py : duration accounting of
apply_viral_transitions with the slide transition -/

/-- Duration of the clip built by slide_transition: a composite of two
image clips that both last the requested duration, so the composite lasts
their maximum end time. -/
def slide_transition_len (d : ℚ) : ℚ := max d d

/-- Duration of the transition clip built by create_transition for the
slide type: the per-transition duration is 0.3 in preview mode and 0.5
otherwise. -/
def create_transition_len (preview : Bool) : ℚ :=
  let d : ℚ := if preview then 3/10 else 1/2
  slide_transition_len d

/-- Durations of the clip list assembled by the apply_viral_transitions
loop for two or more clips: each clip followed by an inserted transition
clip, except after the last clip (fade in and fade out change pixels, not
durations). -/
def processedDurations (tlen : ℚ) : List ℚ → List ℚ
  | [] => []
  | [d] => [d]
  | d :: rest => d :: tlen :: processedDurations tlen rest

/-- Output duration of apply_viral_transitions with transition type slide:
none models the ValueError raised on an empty clip list; a single clip
keeps its duration; otherwise the processed list is concatenated, so its
duration is the sum. -/
def apply_viral_transitions_len (durs : List ℚ) (preview : Bool) : Option ℚ :=
  match durs with
  | [] => none
  | [d] => some d
  | durs => some (processedDurations (create_transition_len preview) durs).sum

/-- Helper: pyInt agrees with an integer bracketing of a nonnegative
rational. -/
theorem pyInt_eq_of_le_of_lt (q : ℚ) (n : ℤ) (h0 : 0 ≤ q) (h1 : (n:ℚ) ≤ q)
    (h2 : q < n + 1) : pyInt q = n := by
  unfold pyInt
  rw [if_pos h0]
  exact Int.floor_eq_iff.mpr ⟨h1, h2⟩

theorem medium_916_dimensions : get_target_dimensions "9:16" "medium" = (810, 1440) := by
  have hml : ¬ ("medium" = "low") := by decide
  have hp1 : pyInt ((810 : ℚ)) = 810 :=
    pyInt_eq_of_le_of_lt _ _ (by norm_num) (by norm_num) (by norm_num)
  have hp2 : pyInt ((1440 : ℚ)) = 1440 :=
    pyInt_eq_of_le_of_lt _ _ (by norm_num) (by norm_num) (by norm_num)
  unfold get_target_dimensions quality_multipliers base_dimensions
  norm_num
  rw [if_neg hml, if_neg hml, hp1, hp2]
  omega

/-- C8 counterexample: in scenario A (three 3.0 s clips, slide transition,
no preview) the assembled output lasts 10.0 s, which exceeds 9.0 s, so the
duration is not 9.0 s minus a nonnegative transition overlap. -/
theorem scenario_a_duration_exceeds_nine :
    apply_viral_transitions_len [3, 3, 3] false = some 10 ∧ ¬ ((10:ℚ) ≤ 9) := by
  constructor
  · simp [apply_viral_transitions_len, processedDurations, create_transition_len,
      slide_transition_len]
    norm_num
  · norm_num

/-- C8 amended: in scenario A the output duration equals 9.0 s plus the
two inserted 0.5 s slide transition clips (10.0 s in total; transitions
are inserted between clips and add duration rather than overlapping), and
the target resolution is the medium-scaled 9:16 size 810 by 1440, both
dimensions even. -/
theorem scenario_a_duration_and_dimensions :
    apply_viral_transitions_len [3, 3, 3] false = some (3 + 3 + 3 + 2 * (1/2)) ∧
    get_target_dimensions "9:16" "medium" = (810, 1440) ∧
    (810:ℤ) % 2 = 0 ∧ (1440:ℤ) % 2 = 0 := by
  refine ⟨?_, medium_916_dimensions, by norm_num, by norm_num⟩
  simp [apply_viral_transitions_len, processedDurations, create_transition_len,
    slide_transition_len]
  norm_num

/-! ## newer_ideas/aeon-implementation-guide.py :
BeatSyncEngine._identify_strong_beats -/

/-- Frame index into the onset envelope for a beat time:
int(beat_time * 44100 / 512). -/
def onset_index (b : ℚ) : ℤ := pyInt (b * 44100 / 512)

/-- Onset envelope lookup at the frame index of a beat time. The theorems
are applied at inputs whose index is within range, matching the Python
list indexing. -/
def onsetAt (onset : List ℚ) (b : ℚ) : ℚ :=
  onset.getD (onset_index b).toNat 0

/-- The enumerated loop of _identify_strong_beats, in source order: a beat
at an index divisible by 4 is always kept; otherwise (elif) a beat at an
even index is kept when its local onset strength exceeds the median onset
strength times 1.5; every other beat is dropped. -/
def strongBeatsGo (onset : List ℚ) (med : ℚ) : ℕ → List ℚ → List ℚ
  | _, [] => []
  | i, b :: rest =>
    if i % 4 = 0 then b :: strongBeatsGo onset med (i + 1) rest
    else if i % 2 = 0 ∧ onsetAt onset b > med * (3/2) then
      b :: strongBeatsGo onset med (i + 1) rest
    else strongBeatsGo onset med (i + 1) rest

/-- _identify_strong_beats: enumerate the tracked beats from index 0. -/
def identify_strong_beats (beat_times onset : List ℚ) : List ℚ :=
  strongBeatsGo onset (npMedian onset) 0 beat_times

/-- The strong-beat set as the claim states it: every 4th tracked beat,
together with every beat whose local onset strength exceeds 1.5 times the
median onset strength. -/
def claimedStrongBeats (beat_times onset : List ℚ) : List ℚ :=
  let med := npMedian onset
  ((beat_times.enum.filter
    (fun p => decide (p.1 % 4 = 0 ∨ onsetAt onset p.2 > med * (3/2)))).map
    Prod.snd)

/-- The strong-beat set as the code computes it, stated as one filter:
every 4th tracked beat, together with every beat at an index congruent to
2 mod 4 whose local onset strength exceeds 1.5 times the median onset
strength. -/
def amendedStrongBeats (beat_times onset : List ℚ) : List ℚ :=
  let med := npMedian onset
  ((beat_times.enum.filter
    (fun p => decide (p.1 % 4 = 0 ∨
      (p.1 % 4 = 2 ∧ onsetAt onset p.2 > med * (3/2))))).map
    Prod.snd)

theorem strongBeatsGo_eq_filter (onset : List ℚ) (med : ℚ) (l : List ℚ) :
    ∀ i : ℕ,
      strongBeatsGo onset med i l =
        ((l.enumFrom i).filter
          (fun p => decide (p.1 % 4 = 0 ∨
            (p.1 % 4 = 2 ∧ onsetAt onset p.2 > med * (3/2))))).map
          Prod.snd := by
  induction l with
  | nil => intro i; rfl
  | cons b rest ih =>
    intro i
    rw [List.enumFrom_cons, List.filter_cons]
    by_cases h4 : i % 4 = 0
    · have hcond : (decide (i % 4 = 0 ∨
          (i % 4 = 2 ∧ onsetAt onset b > med * (3/2)))) = true := by
        simp [h4]
      rw [strongBeatsGo, if_pos h4, ih (i + 1), hcond, if_pos rfl, List.map_cons]
    · by_cases h2 : i % 2 = 0 ∧ onsetAt onset b > med * (3/2)
      · have h42 : i % 4 = 2 := by omega
        have hcond : (decide (i % 4 = 0 ∨
            (i % 4 = 2 ∧ onsetAt onset b > med * (3/2)))) = true := by
          simp [h42, h2.2]
        rw [strongBeatsGo, if_neg h4, if_pos h2, ih (i + 1), hcond, if_pos rfl,
          List.map_cons]
      · have hcond : (decide (i % 4 = 0 ∨
            (i % 4 = 2 ∧ onsetAt onset b > med * (3/2)))) = false := by
          rw [decide_eq_false_iff_not]
          rintro (h | ⟨ha, hb⟩)
          · exact h4 h
          · exact h2 ⟨by omega, hb⟩
        rw [strongBeatsGo, if_neg h4, if_neg h2, ih (i + 1), hcond,
          if_neg Bool.false_ne_true]

/-- C7 amended: the strong-beat list equals the filter keeping every 4th
tracked beat together with every beat at index 2 mod 4 whose local onset
strength exceeds 1.5 times the median onset strength; beats at odd indices
are never kept, whatever their onset strength. -/
theorem strong_beats_characterization (beat_times onset : List ℚ) :
    identify_strong_beats beat_times onset =
      amendedStrongBeats beat_times onset := by
  unfold identify_strong_beats amendedStrongBeats
  rw [strongBeatsGo_eq_filter]
  rfl

theorem npMedian_example : npMedian [1, 1, 1, 10] = 1 := by
  norm_num [npMedian, List.insertionSort, List.orderedInsert, List.getD]

theorem onsetAt_example : onsetAt [1, 1, 1, 10] (7/200) = 10 := by
  have hidx : onset_index (7/200) = 3 :=
    pyInt_eq_of_le_of_lt _ _ (by norm_num) (by norm_num) (by norm_num)
  rw [onsetAt, hidx]
  rfl

/-- C7 counterexample: with beats at times 0 and 0.035 and onset envelope
1, 1, 1, 10 (median 1), the beat at index 1 has onset strength 10, far
above 1.5 times the median, so the claimed set contains it, but the code
only tests onset strength at even indices and omits it. -/
theorem strong_beats_odd_index_missed :
    ((7:ℚ)/200) ∈ claimedStrongBeats [0, 7/200] [1, 1, 1, 10] ∧
    ((7:ℚ)/200) ∉ identify_strong_beats [0, 7/200] [1, 1, 1, 10] := by
  constructor
  · unfold claimedStrongBeats
    rw [npMedian_example]
    simp [List.enum, List.filter_cons, onsetAt_example]
    norm_num
  · unfold identify_strong_beats
    rw [npMedian_example]
    show (7:ℚ)/200 ∉ strongBeatsGo [1, 1, 1, 10] 1 0 [0, 7/200]
    rw [strongBeatsGo, if_pos (by norm_num)]
    rw [strongBeatsGo, if_neg (by norm_num), if_neg (by norm_num), strongBeatsGo]
    simp

/-! ## backend/python/aeon_pipeline.py : sync_transitions_to_beats -/

/-- Nearest beat to a cut time: the Python min over beat_times keyed by
absolute distance; none models the ValueError that min raises on an empty
sequence. -/
def nearestBeat (beat_times : List ℚ) (c : ℚ) : Option ℚ :=
  match beat_times with
  | [] => none
  | b :: bs => some (pyMinBy (fun x => |x - c|) b bs)

/-- The loop of sync_transitions_to_beats: current_time accumulates the
scene durations over all but the last scene; each natural cut snaps to
the nearest beat when its distance is strictly below 0.5, and stays at
the natural cut otherwise. -/
def syncLoop (beat_times : List ℚ) : ℚ → List ℚ → Option (List ℚ)
  | _, [] => some []
  | t, d :: ds =>
    match nearestBeat beat_times (t + d) with
    | none => none
    | some nb =>
      match syncLoop beat_times (t + d) ds with
      | none => none
      | some rest =>
        some ((if |nb - (t + d)| < 1/2 then nb else (t + d)) :: rest)

/-- sync_transitions_to_beats: iterate over scene_durations[:-1] starting
from time 0. -/
def sync_transitions_to_beats (beat_times scene_durations : List ℚ) :
    Option (List ℚ) :=
  syncLoop beat_times 0 scene_durations.dropLast

/-- Natural cut times: cumulative sums of all but the last scene
duration. -/
def cutsFrom : ℚ → List ℚ → List ℚ
  | _, [] => []
  | t, d :: ds => (t + d) :: cutsFrom (t + d) ds

/-- The natural cut times of a scene duration list. -/
def cutTimes (scene_durations : List ℚ) : List ℚ :=
  cutsFrom 0 scene_durations.dropLast

/-- The nearest beat as the claim words it: among the beats at minimal
absolute distance from the cut time, the earliest one. -/
def specNearest (beat_times : List ℚ) (c : ℚ) : Option ℚ :=
  (beat_times.filter
    (fun b => decide (∀ x ∈ beat_times, |b - c| ≤ |x - c|))).min?

/-- The sync plan as the amended claim words it: each natural cut time
maps to the earliest nearest beat when the minimal distance is strictly
below the 0.5 s tolerance, and is emitted unchanged otherwise. -/
def claimedSyncPlanStrict (beat_times cuts : List ℚ) : List ℚ :=
  cuts.map (fun c =>
    match specNearest beat_times c with
    | some nb => if |nb - c| < 1/2 then nb else c
    | none => c)

/-- The sync plan as the original claim words it: the cut snaps to the
nearest beat already when the minimal distance equals the tolerance. -/
def claimedSyncPlanLe (beat_times cuts : List ℚ) : List ℚ :=
  cuts.map (fun c =>
    match specNearest beat_times c with
    | some nb => if |nb - c| ≤ 1/2 then nb else c
    | none => c)

theorem pyMinBy_cons (f : ℚ → ℚ) (a x : ℚ) (t : List ℚ) :
    pyMinBy f a (x :: t) = pyMinBy f (if f x < f a then x else a) t := rfl

/-- The Python min over a sorted nonempty list is a minimizer of the key,
and among equal keys it is the least element: the scan keeps the first
occurrence of the minimal key, which in an ascending list is the
earliest. -/
theorem pyMinBy_spec (f : ℚ → ℚ) :
    ∀ (l : List ℚ) (a : ℚ), List.Pairwise (· ≤ ·) (a :: l) →
      (pyMinBy f a l ∈ a :: l) ∧
      (∀ x ∈ a :: l, f (pyMinBy f a l) ≤ f x) ∧
      (∀ x ∈ a :: l, f x ≤ f (pyMinBy f a l) → pyMinBy f a l ≤ x) := by
  intro l
  induction l with
  | nil =>
    intro a _
    refine ⟨List.mem_singleton_self a, ?_, ?_⟩
    · intro x hx
      rw [List.mem_singleton] at hx
      subst hx
      exact le_refl _
    · intro x hx _
      rw [List.mem_singleton] at hx
      subst hx
      exact le_refl _
  | cons x t ih =>
    intro a hsort
    rw [List.pairwise_cons] at hsort
    obtain ⟨ha, hxt⟩ := hsort
    have hax : a ≤ x := ha x (List.mem_cons_self x t)
    have hxTail := List.pairwise_cons.mp hxt
    rw [pyMinBy_cons]
    set b' := if f x < f a then x else a with hb'
    have hsort' : List.Pairwise (· ≤ ·) (b' :: t) := by
      rw [List.pairwise_cons]
      refine ⟨?_, hxTail.2⟩
      intro y hy
      by_cases hfx : f x < f a
      · rw [hb', if_pos hfx]; exact hxTail.1 y hy
      · rw [hb', if_neg hfx]; exact ha y (List.mem_cons_of_mem x hy)
    obtain ⟨ihmem, ihmin, ihtie⟩ := ih b' hsort'
    have hfba : f b' ≤ f a := by
      by_cases hfx : f x < f a
      · rw [hb', if_pos hfx]; exact le_of_lt hfx
      · rw [hb', if_neg hfx]
    have hfbx : f b' ≤ f x := by
      by_cases hfx : f x < f a
      · rw [hb', if_pos hfx]
      · rw [hb', if_neg hfx]; exact not_lt.mp hfx
    have hmb : f (pyMinBy f b' t) ≤ f b' := ihmin b' (List.mem_cons_self b' t)
    refine ⟨?_, ?_, ?_⟩
    · rcases List.mem_cons.mp ihmem with hm | hm
      · rw [hm, hb']
        by_cases hfx : f x < f a
        · rw [if_pos hfx]; exact List.mem_cons_of_mem a (List.mem_cons_self x t)
        · rw [if_neg hfx]; exact List.mem_cons_self a (x :: t)
      · exact List.mem_cons_of_mem a (List.mem_cons_of_mem x hm)
    · intro y hy
      rcases List.mem_cons.mp hy with h | h
      · subst h; exact le_trans hmb hfba
      rcases List.mem_cons.mp h with h | h
      · subst h; exact le_trans hmb hfbx
      · exact ihmin y (List.mem_cons_of_mem b' h)
    · intro y hy hfy
      rcases List.mem_cons.mp hy with h | h
      · rw [h]
        by_cases hfx : f x < f a
        · exfalso
          have hba : f b' < f a := by rw [hb', if_pos hfx]; exact hfx
          rw [h] at hfy
          exact absurd (lt_of_le_of_lt (le_trans hfy hmb) hba) (lt_irrefl _)
        · have hba : b' = a := by rw [hb', if_neg hfx]
          rw [h] at hfy
          have hstep := ihtie b' (List.mem_cons_self b' t)
            (le_trans (congrArg f hba).le hfy)
          exact le_trans hstep hba.le
      rcases List.mem_cons.mp h with h | h
      · rw [h]
        by_cases hfx : f x < f a
        · have hbx : b' = x := by rw [hb', if_pos hfx]
          rw [h] at hfy
          have hstep := ihtie b' (List.mem_cons_self b' t)
            (le_trans (congrArg f hbx).le hfy)
          exact le_trans hstep hbx.le
        · have hba : b' = a := by rw [hb', if_neg hfx]
          have hfax : f a ≤ f x := not_lt.mp hfx
          rw [h] at hfy
          have hstep := ihtie b' (List.mem_cons_self b' t)
            (le_trans (congrArg f hba).le (le_trans hfax hfy))
          exact le_trans (le_trans hstep hba.le) hax
      · exact ihtie y (List.mem_cons_of_mem b' h) hfy

/-- With an ascending beat list, the Python min (first minimizer) is
exactly the earliest nearest beat of the claim. -/
theorem specNearest_eq_pyMinBy (b0 : ℚ) (bs : List ℚ) (c : ℚ)
    (hsort : List.Pairwise (· ≤ ·) (b0 :: bs)) :
    specNearest (b0 :: bs) c = some (pyMinBy (fun x => |x - c|) b0 bs) := by
  obtain ⟨hmem, hmin, htie⟩ := pyMinBy_spec (fun x => |x - c|) bs b0 hsort
  unfold specNearest
  haveI : Std.Antisymm ((· : ℚ) ≤ ·) := ⟨fun h1 h2 => le_antisymm h1 h2⟩
  rw [List.min?_eq_some_iff (fun a => le_refl a) (fun a b => min_choice a b)
    (fun a b c => le_min_iff)]
  constructor
  · rw [List.mem_filter, decide_eq_true_eq]
    exact ⟨hmem, hmin⟩
  · intro y hy
    rw [List.mem_filter, decide_eq_true_eq] at hy
    obtain ⟨hymem, hymin⟩ := hy
    exact htie y hymem (hymin _ hmem)

theorem syncLoop_eq_claimed (b0 : ℚ) (bs : List ℚ)
    (hsort : List.Pairwise (· ≤ ·) (b0 :: bs)) :
    ∀ (ds : List ℚ) (t : ℚ),
      syncLoop (b0 :: bs) t ds =
        some (claimedSyncPlanStrict (b0 :: bs) (cutsFrom t ds)) := by
  intro ds
  induction ds with
  | nil => intro t; rfl
  | cons d ds ih =>
    intro t
    rw [syncLoop, ih (t + d)]
    show some _ = _
    unfold claimedSyncPlanStrict
    rw [cutsFrom, List.map_cons, specNearest_eq_pyMinBy b0 bs (t + d) hsort]

/-- C1 amended: for a nonempty ascending beat list, the sync planner maps
each natural cut time to the earliest beat at minimal absolute distance
when that distance is strictly less than the 0.5 s tolerance, and emits
the cut time unchanged otherwise; the plan is the deterministic image of
the cut times under this rule. -/
theorem sync_plan_matches_claim (b0 : ℚ) (bs sd : List ℚ)
    (hsort : List.Pairwise (· ≤ ·) (b0 :: bs)) :
    sync_transitions_to_beats (b0 :: bs) sd =
      some (claimedSyncPlanStrict (b0 :: bs) (cutTimes sd)) := by
  unfold sync_transitions_to_beats cutTimes
  exact syncLoop_eq_claimed b0 bs hsort sd.dropLast 0

/-- Witness for C1 at concrete ascending beats and scene durations. -/
theorem sync_plan_matches_claim_witness :
    List.Pairwise (· ≤ ·) [(1:ℚ), 2] ∧
    sync_transitions_to_beats [1, 2] [1, 1] =
      some (claimedSyncPlanStrict [1, 2] (cutTimes [1, 1])) :=
  ⟨by decide, sync_plan_matches_claim 1 [2] [1, 1] (by decide)⟩

/-- C1 counterexample: a beat at exactly tolerance distance (0.5 s) from
the natural cut. The claim with its at-most comparison snaps the cut to
the beat, but the code compares strictly and keeps the natural cut, so at
this input the code output differs from the claimed output. -/
theorem sync_tolerance_boundary_differs :
    sync_transitions_to_beats [3/2] [1, 1] = some [1] ∧
    claimedSyncPlanLe [3/2] (cutTimes [1, 1]) = [3/2] ∧
    sync_transitions_to_beats [3/2] [1, 1] ≠
      some (claimedSyncPlanLe [3/2] (cutTimes [1, 1])) := by
  have hcut : cutTimes [1, 1] = [1] := by
    unfold cutTimes
    show cutsFrom 0 [1] = [1]
    rw [cutsFrom, cutsFrom]
    norm_num
  have hsn : specNearest [3/2] 1 = some (3/2) :=
    specNearest_eq_pyMinBy (3/2) [] 1 (by decide)
  have hcode : sync_transitions_to_beats [3/2] [1, 1] = some [1] := by
    unfold sync_transitions_to_beats
    show syncLoop [3/2] 0 [1] = some [1]
    rw [syncLoop, syncLoop]
    show some [if |3/2 - (0 + 1)| < 1/2 then 3/2 else (0 + 1)] = some [1]
    rw [if_neg (by
      rw [show (3:ℚ)/2 - (0 + 1) = 1/2 by norm_num,
        abs_of_nonneg (by norm_num : (0:ℚ) ≤ 1/2)]
      norm_num)]
    norm_num
  have hclaim : claimedSyncPlanLe [3/2] (cutTimes [1, 1]) = [3/2] := by
    rw [hcut]
    unfold claimedSyncPlanLe
    rw [List.map_cons, List.map_nil, hsn]
    show [if |3/2 - 1| ≤ 1/2 then 3/2 else 1] = [3/2]
    rw [if_pos (by
      rw [show (3:ℚ)/2 - 1 = 1/2 by norm_num,
        abs_of_nonneg (by norm_num : (0:ℚ) ≤ 1/2)])]
  refine ⟨hcode, hclaim, ?_⟩
  rw [hcode, hclaim]
  intro h
  rw [Option.some_inj] at h
  have : (1:ℚ) = 3/2 := List.head_eq_of_cons_eq h
  norm_num at this

/-- C5: the spec requires that with an empty beat list the planner return
the natural cut times unchanged, but the loop body calls min over the
empty beat sequence, which raises a ValueError (modelled as none) as soon
as there are at least two scene durations. -/
theorem empty_beats_sync_raises :
    sync_transitions_to_beats [] [1, 1] = none ∧ cutTimes [1, 1] = [1] := by
  constructor
  · rfl
  · unfold cutTimes
    show cutsFrom 0 [1] = [1]
    rw [cutsFrom, cutsFrom]
    norm_num

/-! ## zoom punch: the GPU kernel of gpu_transition_worker.py
(zoom_punch_kernel) and the CPU fallback of backend/app/transitions.py
(zoom_punch_transition) -/

/-- Blend weight toward clip_b in the GPU zoom punch kernel:
alpha = min(1.0, progress * 2.0). -/
def zoomAlpha (progress : ℚ) : ℚ := min 1 (progress * 2)

/-- Source coordinates computed by the kernel for an output pixel:
center + delta / zoom_factor, truncated to int, where
zoom_factor = 1 + intensity * progress * (1 - distance / max(center_x,
center_y)). The kernel obtains distance as (dx*dx + dy*dy) ** 0.5; that
square root is not rational in general, so it enters here as the argument
dist, which the theorems constrain by dist * dist = dx * dx + dy * dy and
0 <= dist. -/
def zoomSrc (progress intensity : ℚ) (center_x center_y : ℤ) (dist : ℚ)
    (i j : ℤ) : ℤ × ℤ :=
  let dx : ℚ := (j : ℚ) - (center_x : ℚ)
  let dy : ℚ := (i : ℚ) - (center_y : ℚ)
  let zoom_factor : ℚ :=
    1 + intensity * progress * (1 - dist / max (center_x : ℚ) (center_y : ℚ))
  (pyInt ((center_x : ℚ) + dx / zoom_factor),
   pyInt ((center_y : ℚ) + dy / zoom_factor))

/-- One output pixel of the GPU zoom punch kernel: when the zoomed source
lies inside frame1 the output blends frame1 at the source with frame2 at
the output pixel using the alpha weight; when the source is out of
bounds the output is frame2 at that pixel. -/
def zoom_punch_kernel (frame1 frame2 : ℤ → ℤ → Fin 3 → ℚ) (h1 w1 : ℤ)
    (progress intensity : ℚ) (center_x center_y : ℤ) (dist : ℚ)
    (i j : ℤ) (ch : Fin 3) : ℚ :=
  if 0 ≤ (zoomSrc progress intensity center_x center_y dist i j).1 ∧
      (zoomSrc progress intensity center_x center_y dist i j).1 < w1 ∧
      0 ≤ (zoomSrc progress intensity center_x center_y dist i j).2 ∧
      (zoomSrc progress intensity center_x center_y dist i j).2 < h1 then
    (1 - zoomAlpha progress) *
        frame1 (zoomSrc progress intensity center_x center_y dist i j).2
          (zoomSrc progress intensity center_x center_y dist i j).1 ch +
      zoomAlpha progress * frame2 i j ch
  else frame2 i j ch

/-- Zoom factor of the CPU zoom punch transition: the frozen last frame
of clip_a is resized by the time-dependent factor 1 + 0.5 * (t /
duration). -/
def cpuZoomFactor (duration t : ℚ) : ℚ := 1 + (1/2) * (t / duration)

/-- Blend weight toward clip_b on the CPU zoom punch path: the frozen
first frame of clip_b is composited on top of the zoomed clip_a frame,
starting at 0.7 * duration and fading in over 0.3 * duration. -/
def cpuBlendWeight (duration t : ℚ) : ℚ :=
  if t < (7/10) * duration then 0
  else min 1 ((t - (7/10) * duration) / ((3/10) * duration))

/-- Source coordinate sampled by the magnifying resize: an output
coordinate p samples p / factor in the frozen clip_a frame. -/
def cpuZoomSrc (factor p : ℚ) : ℚ := p / factor

/-- C6: on the GPU kernel path the blend weight toward clip_b is
monotonically nondecreasing in the progress over 0 to 1, any pixel whose
zoomed source coordinate falls outside the clip_a frame is filled from
clip_b, and any in-bounds pixel is the alpha blend of clip_a at the
source with clip_b; on the CPU fallback path the blend weight toward
clip_b is monotonically nondecreasing in time over the transition, and
the zoom factor is at least 1, so every zoomed source coordinate stays
inside the clip_a frame and no out-of-bounds fill is ever needed. -/
theorem zoom_punch_blend_monotone_and_oob :
    (∀ p₁ p₂ : ℚ, 0 ≤ p₁ → p₁ ≤ p₂ → p₂ ≤ 1 → zoomAlpha p₁ ≤ zoomAlpha p₂) ∧
    (∀ (frame1 frame2 : ℤ → ℤ → Fin 3 → ℚ) (h1 w1 : ℤ)
        (progress intensity : ℚ) (cx cy : ℤ) (dist : ℚ) (i j : ℤ) (ch : Fin 3),
      0 ≤ dist →
      dist * dist = ((j : ℚ) - (cx : ℚ)) * ((j : ℚ) - (cx : ℚ)) +
        ((i : ℚ) - (cy : ℚ)) * ((i : ℚ) - (cy : ℚ)) →
      ¬(0 ≤ (zoomSrc progress intensity cx cy dist i j).1 ∧
          (zoomSrc progress intensity cx cy dist i j).1 < w1 ∧
          0 ≤ (zoomSrc progress intensity cx cy dist i j).2 ∧
          (zoomSrc progress intensity cx cy dist i j).2 < h1) →
      zoom_punch_kernel frame1 frame2 h1 w1 progress intensity cx cy dist i j ch =
        frame2 i j ch) ∧
    (∀ (frame1 frame2 : ℤ → ℤ → Fin 3 → ℚ) (h1 w1 : ℤ)
        (progress intensity : ℚ) (cx cy : ℤ) (dist : ℚ) (i j : ℤ) (ch : Fin 3),
      0 ≤ dist →
      dist * dist = ((j : ℚ) - (cx : ℚ)) * ((j : ℚ) - (cx : ℚ)) +
        ((i : ℚ) - (cy : ℚ)) * ((i : ℚ) - (cy : ℚ)) →
      (0 ≤ (zoomSrc progress intensity cx cy dist i j).1 ∧
          (zoomSrc progress intensity cx cy dist i j).1 < w1 ∧
          0 ≤ (zoomSrc progress intensity cx cy dist i j).2 ∧
          (zoomSrc progress intensity cx cy dist i j).2 < h1) →
      zoom_punch_kernel frame1 frame2 h1 w1 progress intensity cx cy dist i j ch =
        (1 - zoomAlpha progress) *
            frame1 (zoomSrc progress intensity cx cy dist i j).2
              (zoomSrc progress intensity cx cy dist i j).1 ch +
          zoomAlpha progress * frame2 i j ch) ∧
    (∀ d t₁ t₂ : ℚ, 0 < d → 0 ≤ t₁ → t₁ ≤ t₂ → t₂ ≤ d →
      cpuBlendWeight d t₁ ≤ cpuBlendWeight d t₂) ∧
    (∀ d t p w : ℚ, 0 < d → 0 ≤ t → t ≤ d → 0 ≤ p → p < w →
      1 ≤ cpuZoomFactor d t ∧
      0 ≤ cpuZoomSrc (cpuZoomFactor d t) p ∧
      cpuZoomSrc (cpuZoomFactor d t) p < w) := by
  refine ⟨?_, ?_, ?_, ?_, ?_⟩
  · intro p₁ p₂ _ h12 _
    unfold zoomAlpha
    exact min_le_min (le_refl 1) (by linarith)
  · intro frame1 frame2 h1 w1 progress intensity cx cy dist i j ch _ _ hoob
    unfold zoom_punch_kernel
    rw [if_neg hoob]
  · intro frame1 frame2 h1 w1 progress intensity cx cy dist i j ch _ _ hin
    unfold zoom_punch_kernel
    rw [if_pos hin]
  · intro d t₁ t₂ hd ht₁ h12 ht₂
    unfold cpuBlendWeight
    have hk : (0:ℚ) < (3/10) * d := by positivity
    by_cases h₁ : t₁ < (7/10) * d
    · rw [if_pos h₁]
      by_cases h₂ : t₂ < (7/10) * d
      · rw [if_pos h₂]
      · rw [if_neg h₂]
        refine le_min (by norm_num) ?_
        apply div_nonneg _ (le_of_lt hk)
        linarith [not_lt.mp h₂]
    · rw [if_neg h₁, if_neg (by push_neg at h₁ ⊢; linarith)]
      refine min_le_min (le_refl 1) ?_
      exact (div_le_div_right hk).mpr (by linarith)
  · intro d t p w hd ht htd hp hpw
    have hq : (0:ℚ) ≤ t / d := div_nonneg ht (le_of_lt hd)
    have hf : 1 ≤ cpuZoomFactor d t := by
      unfold cpuZoomFactor
      linarith
    refine ⟨hf, ?_, ?_⟩
    · exact div_nonneg hp (by linarith)
    · exact lt_of_le_of_lt (div_le_self hp hf) hpw

/-- Helper: pyInt on a negative rational bracketed by an integer. -/
theorem pyInt_eq_of_neg (q : ℚ) (n : ℤ) (h0 : q < 0) (h1 : (n:ℚ) - 1 < q)
    (h2 : q ≤ n) : pyInt q = n := by
  unfold pyInt
  rw [if_neg (not_le.mpr h0)]
  exact Int.ceil_eq_iff.mpr ⟨h1, h2⟩

/-- Helper: the 3-4-5 pixel used by the C6 witness, where the zoom factor
is 3/4 and the zoomed source column falls past the right edge. -/
theorem zoomSrc_oob_example : zoomSrc 1 1 4 4 5 0 7 = (8, -1) := by
  have h8 : pyInt (8 : ℚ) = 8 :=
    pyInt_eq_of_le_of_lt _ _ (by norm_num) (by norm_num) (by norm_num)
  have hm : pyInt (-(4/3) : ℚ) = -1 :=
    pyInt_eq_of_neg _ _ (by norm_num) (by norm_num) (by norm_num)
  unfold zoomSrc
  push_cast
  norm_num [max_self]
  exact ⟨h8, hm⟩

/-- Helper: the center pixel of the C6 witness, whose zoomed source is the
center itself. -/
theorem zoomSrc_center_example : zoomSrc 1 1 4 4 0 4 4 = (4, 4) := by
  have h4 : pyInt (4 : ℚ) = 4 :=
    pyInt_eq_of_le_of_lt _ _ (by norm_num) (by norm_num) (by norm_num)
  unfold zoomSrc
  push_cast
  norm_num [max_self]
  simp [h4]

/-- Helper: the 3-4-5 distance equation at the out-of-bounds witness
pixel. -/
theorem dist_545_example :
    (5:ℚ) * 5 = (((7:ℤ):ℚ) - ((4:ℤ):ℚ)) * (((7:ℤ):ℚ) - ((4:ℤ):ℚ)) +
      (((0:ℤ):ℚ) - ((4:ℤ):ℚ)) * (((0:ℤ):ℚ) - ((4:ℤ):ℚ)) := by
  push_cast
  norm_num

/-- Helper: the distance equation at the center witness pixel. -/
theorem dist_center_example :
    (0:ℚ) * 0 = (((4:ℤ):ℚ) - ((4:ℤ):ℚ)) * (((4:ℤ):ℚ) - ((4:ℤ):ℚ)) +
      (((4:ℤ):ℚ) - ((4:ℤ):ℚ)) * (((4:ℤ):ℚ) - ((4:ℤ):ℚ)) := by
  push_cast
  norm_num

/-- Helper: the witness pixel source is out of bounds for an 8 by 8
frame. -/
theorem zoom_oob_cond_example :
    ¬(0 ≤ (zoomSrc 1 1 4 4 5 0 7).1 ∧ (zoomSrc 1 1 4 4 5 0 7).1 < 8 ∧
        0 ≤ (zoomSrc 1 1 4 4 5 0 7).2 ∧ (zoomSrc 1 1 4 4 5 0 7).2 < 8) := by
  rw [zoomSrc_oob_example]
  decide

/-- Helper: the center pixel source is in bounds for an 8 by 8 frame. -/
theorem zoom_in_cond_example :
    0 ≤ (zoomSrc 1 1 4 4 0 4 4).1 ∧ (zoomSrc 1 1 4 4 0 4 4).1 < 8 ∧
      0 ≤ (zoomSrc 1 1 4 4 0 4 4).2 ∧ (zoomSrc 1 1 4 4 0 4 4).2 < 8 := by
  rw [zoomSrc_center_example]
  decide

/-- Witness for C6 at concrete inputs: the progress pair 0 and 1, an
out-of-bounds 3-4-5 pixel and the in-bounds center pixel of an 8 by 8
frame on the GPU path, and the endpoints of a unit-duration transition on
the CPU path. -/
theorem zoom_punch_blend_monotone_and_oob_witness :
    zoomAlpha 0 ≤ zoomAlpha 1 ∧
    zoom_punch_kernel (fun _ _ _ => 0) (fun _ _ _ => 2) 8 8 1 1 4 4 5 0 7 0 = 2 ∧
    zoom_punch_kernel (fun _ _ _ => 0) (fun _ _ _ => 2) 8 8 1 1 4 4 0 4 4 0 =
      (1 - zoomAlpha 1) * 0 + zoomAlpha 1 * 2 ∧
    cpuBlendWeight 1 0 ≤ cpuBlendWeight 1 1 ∧
    (1 ≤ cpuZoomFactor 1 0 ∧ 0 ≤ cpuZoomSrc (cpuZoomFactor 1 0) 0 ∧
      cpuZoomSrc (cpuZoomFactor 1 0) 0 < 1) :=
  ⟨zoom_punch_blend_monotone_and_oob.1 0 1 (by decide) (by decide) (by decide),
   zoom_punch_blend_monotone_and_oob.2.1 (fun _ _ _ => 0) (fun _ _ _ => 2)
     8 8 1 1 4 4 5 0 7 0 (by decide) dist_545_example zoom_oob_cond_example,
   zoom_punch_blend_monotone_and_oob.2.2.1 (fun _ _ _ => 0) (fun _ _ _ => 2)
     8 8 1 1 4 4 0 4 4 0 (by decide) dist_center_example zoom_in_cond_example,
   zoom_punch_blend_monotone_and_oob.2.2.2.1 1 0 1 (by decide) (by decide)
     (by decide) (by decide),
   zoom_punch_blend_monotone_and_oob.2.2.2.2 1 0 0 1 (by decide) (by decide)
     (by decide) (by decide) (by decide)⟩
